import Mathlib

set_option maxHeartbeats 1000000
set_option linter.unusedVariables false

/-!
Verification of the version-resolution engine in
packages/semver/src/executors/version/utils/try-bump.ts.

The reactive (rxjs) pipeline is pure data-flow over external collaborators
(git tag lookup, commit fetch, conventional-commits recommendation,
semver increment).  We embed it as pure functions over an explicit
environment record `Env` supplying the collaborator results; observables
become plain values, `catchError` on the tag lookup becomes an `Option`
fallback, and the warning emitted by the fallback is surfaced as a
`warnings` field of the resolver result.
-/

namespace TryBumpSpec

/-- Release identifiers accepted by the executor schema and the semver
collaborator (schema type ReleaseIdentifier). -/
inductive ReleaseIdentifier
  | major
  | premajor
  | minor
  | preminor
  | patch
  | prepatch
  | prerelease
  deriving DecidableEq

/-- Bump categories the conventional-recommended-bump collaborator can
return (major, minor or patch; absence is modelled with Option). -/
inductive ReleaseCat
  | major
  | minor
  | patch
  deriving DecidableEq

/-- Modelled from the spec: a single prerelease identifier of the semver
collaborator, either numeric or alphanumeric (section 6, incrementVersion). -/
inductive PreId
  | num (n : Nat)
  | str (s : String)
  deriving DecidableEq

/-- Modelled from the spec: a parsed semantic version of the external
semver collaborator (build metadata omitted, it never reaches the core). -/
structure SemVer where
  major : Nat
  minor : Nat
  patch : Nat
  prerelease : List PreId
  deriving DecidableEq

/-- A version string: either a canonical semver string, carried in parsed
form, or a string the semver collaborator cannot parse. -/
inductive VStr
  | valid (v : SemVer)
  | invalid (s : String)
  deriving DecidableEq

/-- Three-way comparison on naturals, as the JS number comparison. -/
def natCmp (a b : Nat) : Ordering :=
  if a < b then Ordering.lt else if a = b then Ordering.eq else Ordering.gt

/-- Three-way comparison of character lists by code point, modelling the
JS string comparison used by the semver collaborator on identifiers. -/
def charListCmp : List Char → List Char → Ordering
  | [], [] => Ordering.eq
  | [], _ :: _ => Ordering.lt
  | _ :: _, [] => Ordering.gt
  | a :: as, b :: bs =>
      match natCmp a.toNat b.toNat with
      | Ordering.eq => charListCmp as bs
      | o => o

/-- Three-way comparison on strings. -/
def strCmp (a b : String) : Ordering := charListCmp a.data b.data

/-- Modelled from the spec: compareIdentifiers of the semver collaborator;
numeric identifiers order below alphanumeric ones, numerics compare as
numbers, alphanumerics as strings. -/
def cmpId : PreId → PreId → Ordering
  | PreId.num a, PreId.num b => natCmp a b
  | PreId.num _, PreId.str _ => Ordering.lt
  | PreId.str _, PreId.num _ => Ordering.gt
  | PreId.str a, PreId.str b => strCmp a b

/-- Combine two comparison results, second one used on a tie. -/
def ordThen : Ordering → Ordering → Ordering
  | Ordering.eq, o => o
  | Ordering.lt, _ => Ordering.lt
  | Ordering.gt, _ => Ordering.gt

/-- Modelled from the spec: elementwise prerelease list comparison of the
semver collaborator; a strict prefix orders below the longer list. -/
def cmpPreList : List PreId → List PreId → Ordering
  | [], [] => Ordering.eq
  | [], _ :: _ => Ordering.lt
  | _ :: _, [] => Ordering.gt
  | a :: as, b :: bs => ordThen (cmpId a b) (cmpPreList as bs)

/-- Modelled from the spec: standard semver ordering (section 3 invariants,
standard semver ordering): compare the numeric triple, then a version with
a prerelease component orders below the same triple without one, then
compare prerelease lists. -/
def compareSemVer (a b : SemVer) : Ordering :=
  match ordThen (natCmp a.major b.major)
      (ordThen (natCmp a.minor b.minor) (natCmp a.patch b.patch)) with
  | Ordering.eq =>
      match a.prerelease, b.prerelease with
      | [], [] => Ordering.eq
      | [], _ :: _ => Ordering.gt
      | _ :: _, [] => Ordering.lt
      | as, bs => cmpPreList as bs
  | o => o

/-- Less-or-equal under standard semver ordering, as a boolean. -/
def semverLeB (a b : SemVer) : Bool :=
  match compareSemVer a b with
  | Ordering.gt => false
  | _ => true

/-- Less-or-equal on version strings: semver ordering on two parseable
versions, plain equality otherwise. -/
def vstrLe : VStr → VStr → Bool
  | VStr.valid a, VStr.valid b => semverLeB a b
  | a, b => a == b

/-- Reads a non-empty all-digit character list as a number. -/
def natOfDigitsAux : List Char → Nat → Option Nat
  | [], acc => some acc
  | c :: cs, acc =>
      if c.isDigit then natOfDigitsAux cs (acc * 10 + (c.toNat - 48)) else none

/-- A user supplied prerelease identifier, classified the way the semver
collaborator classifies identifiers: all-digit strings are numeric. -/
def preIdOfString (s : String) : PreId :=
  match s.data with
  | [] => PreId.str s
  | c :: cs =>
      match natOfDigitsAux (c :: cs) 0 with
      | some n => PreId.num n
      | none => PreId.str s

/-- Modelled from the spec: the semver collaborator increments the last
numeric identifier of a prerelease list, returning none when no numeric
identifier exists. -/
def bumpLastNumeric : List PreId → Option (List PreId)
  | [] => none
  | p :: rest =>
      match bumpLastNumeric rest with
      | some rest2 => some (p :: rest2)
      | none =>
          match p with
          | PreId.num n => some (PreId.num (n + 1) :: rest)
          | PreId.str _ => none

/-- Modelled from the spec: the pre step of the semver collaborator's
increment.  An empty prerelease becomes [0]; otherwise the last numeric
identifier is incremented, or 0 is appended when there is none.  A
non-empty identifier then either keeps the result (same leading identifier
followed by a numeric counter) or restarts the train at [identifier, 0]. -/
def incPreStep (pre : List PreId) (identifier : Option String) : List PreId :=
  let pre1 :=
    if pre = [] then [PreId.num 0]
    else
      match bumpLastNumeric pre with
      | some bumped => bumped
      | none => pre ++ [PreId.num 0]
  match identifier with
  | none => pre1
  | some id =>
      if id = "" then pre1
      else
        let idp := preIdOfString id
        match pre1 with
        | [] => [idp, PreId.num 0]
        | p0 :: rest =>
            if cmpId p0 idp = Ordering.eq then
              match rest with
              | PreId.num _ :: _ => p0 :: rest
              | _ => [idp, PreId.num 0]
            else [idp, PreId.num 0]

/-- Modelled from the spec: the semver collaborator's major increment; a
pre-major version only drops its prerelease component. -/
def incMajor (v : SemVer) : SemVer :=
  { major := if v.minor ≠ 0 ∨ v.patch ≠ 0 ∨ v.prerelease = [] then v.major + 1 else v.major
    minor := 0
    patch := 0
    prerelease := [] }

/-- Modelled from the spec: the semver collaborator's minor increment; a
pre-minor version only drops its prerelease component. -/
def incMinor (v : SemVer) : SemVer :=
  { major := v.major
    minor := if v.patch ≠ 0 ∨ v.prerelease = [] then v.minor + 1 else v.minor
    patch := 0
    prerelease := [] }

/-- Modelled from the spec: the semver collaborator's patch increment; a
pre-patch version only drops its prerelease component. -/
def incPatch (v : SemVer) : SemVer :=
  { major := v.major
    minor := v.minor
    patch := if v.prerelease = [] then v.patch + 1 else v.patch
    prerelease := [] }

/-- Replace the prerelease component by the pre step of the increment. -/
def withPre (v : SemVer) (identifier : Option String) : SemVer :=
  { v with prerelease := incPreStep v.prerelease identifier }

/-- Modelled from the spec: the semver collaborator's increment on a parsed
version, per release identifier (section 6, incrementVersion). -/
def incRelease (v : SemVer) (rt : ReleaseIdentifier) (identifier : Option String) : SemVer :=
  match rt with
  | ReleaseIdentifier.premajor =>
      withPre { major := v.major + 1, minor := 0, patch := 0, prerelease := [] } identifier
  | ReleaseIdentifier.preminor =>
      withPre { major := v.major, minor := v.minor + 1, patch := 0, prerelease := [] } identifier
  | ReleaseIdentifier.prepatch =>
      withPre (incPatch { v with prerelease := [] }) identifier
  | ReleaseIdentifier.prerelease =>
      if v.prerelease = [] then withPre (incPatch v) identifier else withPre v identifier
  | ReleaseIdentifier.major => incMajor v
  | ReleaseIdentifier.minor => incMinor v
  | ReleaseIdentifier.patch => incPatch v

/-- Modelled from the spec: semver.parse; none on an unparseable string. -/
def parse : VStr → Option SemVer
  | VStr.valid v => some v
  | VStr.invalid _ => none

/-- Modelled from the spec: semver.inc; null exactly when the input cannot
be parsed, otherwise the incremented version (section 7, invalid
increment). -/
def inc (s : VStr) (releaseType : ReleaseIdentifier) (identifier : Option String) : Option VStr :=
  match parse s with
  | none => none
  | some v => some (VStr.valid (incRelease v releaseType identifier))

/-- Opaque options of the conventional-commits-parser collaborator; the
core only forwards them (default value models the empty object). -/
abbrev CommitParserOptions := String

/-- The empty parser options object, used when the caller supplies none. -/
def emptyCommitParserOptions : CommitParserOptions := ""

/-- The preset option of the recommendation collaborator: either a preset
name or an inline configuration object (schema type PresetOpt). -/
inductive PresetOpt
  | str (s : String)
  | config (name : Option String)
  deriving DecidableEq

/-- A dependency root: project path and name (get-project-dependencies). -/
structure DependencyRoot where
  path : String
  name : String
  deriving DecidableEq

/-- A per-project version record as aggregated by try-bump (type Version
of version.ts): a tag, a possibly-null version, and the dependency name. -/
structure Version where
  type : String
  version : Option VStr
  dependencyName : String
  deriving DecidableEq

/-- The engine's successful output (interface NewVersion). -/
structure NewVersion where
  version : VStr
  previousVersion : VStr
  dependencyUpdates : List Version
  deriving DecidableEq

/-- The external collaborators consumed by try-bump, as one record of pure
functions: git tag lookup (none models a failed lookup), first commit ref,
commit fetch, tag formatting, and the conventional-commits collaborators. -/
structure Env where
  getLastVersion : String → Option String → Option ReleaseIdentifier → Option VStr
  getFirstCommitRef : String
  getCommits : String → String → List String
  formatTag : String → VStr → String
  formatTagPfx : Option String → String → Bool → String
  recommendedBump : String → String → Bool → String → Option PresetOpt → Option ReleaseCat
  parseCommitType : CommitParserOptions → String → Option String

/-- The sentinel last version used when no tag exists (const
initialVersion of try-bump.ts). -/
def initialVersion : VStr :=
  VStr.valid { major := 0, minor := 0, patch := 0, prerelease := [] }

/-- Function _isInitialVersion of try-bump.ts. -/
def _isInitialVersion (lastVersion : VStr) : Bool :=
  lastVersion == initialVersion

/-- Result of getProjectVersion: the three joined observables, plus the
warnings emitted through the logger while resolving (the source logs them
as a side effect of the catchError fallback). -/
structure ProjectVersion where
  lastVersion : VStr
  commits : List String
  lastVersionGitRef : String
  warnings : List String
  deriving DecidableEq

/-- Function getProjectVersion of try-bump.ts.  A failed tag lookup falls
back to the initial version and logs a warning; the range ref is the first
commit ref when the last version is the sentinel, else the formatted tag;
an explicit since override feeds only the commit fetch. -/
def getProjectVersion (env : Env) (tagPfx projectRoot : String)
    (releaseType : Option ReleaseIdentifier) (since : Option String)
    (projectName : String) (preid : Option String) : ProjectVersion :=
  let lookup := env.getLastVersion tagPfx preid releaseType
  let lastVersion := lookup.getD initialVersion
  let warnings :=
    match lookup with
    | some _ => []
    | none => ["No previous version tag found, fallback to version 0.0.0."]
  let lastVersionGitRef :=
    if _isInitialVersion lastVersion then env.getFirstCommitRef
    else env.formatTag tagPfx lastVersion
  let commits := env.getCommits projectRoot (since.getD lastVersionGitRef)
  { lastVersion := lastVersion
    commits := commits
    lastVersionGitRef := lastVersionGitRef
    warnings := warnings }

/-- The preset normalisation try-bump.ts performs when calling the
recommendation collaborator: a string preset is passed as the preset name,
a configuration object is passed as config with its name (default
conventionalcommits) as the preset name. -/
def presetArgs : PresetOpt → String × Option PresetOpt
  | PresetOpt.str s => (s, none)
  | PresetOpt.config name => (name.getD "conventionalcommits", some (PresetOpt.config name))

/-- The recommendation collaborator call as issued by _semverBump. -/
def recommendedOf (env : Env) (projectRoot tagPfx : String) (skipUnstable : Bool)
    (preset : PresetOpt) : Option ReleaseCat :=
  env.recommendedBump projectRoot tagPfx skipUnstable (presetArgs preset).1 (presetArgs preset).2

/-- The pre-form of a recommended category, the template-literal rewrite
of _semverBump (premajor, preminor, prepatch). -/
def preOf : ReleaseCat → ReleaseIdentifier
  | ReleaseCat.major => ReleaseIdentifier.premajor
  | ReleaseCat.minor => ReleaseIdentifier.preminor
  | ReleaseCat.patch => ReleaseIdentifier.prepatch

/-- A recommended category read back as a release identifier. -/
def catToRelease : ReleaseCat → ReleaseIdentifier
  | ReleaseCat.major => ReleaseIdentifier.major
  | ReleaseCat.minor => ReleaseIdentifier.minor
  | ReleaseCat.patch => ReleaseIdentifier.patch

/-- Function _semverBump of try-bump.ts: obtain a recommended category;
none gives null; when the caller requested a prerelease, a stable since is
bumped by the pre-form of the category, a version already in a prerelease
train by plain prerelease; finally increment since with the optional
preid. -/
def _semverBump (env : Env) (since : VStr) (preset : PresetOpt)
    (projectRoot tagPfx : String) (releaseType : Option ReleaseIdentifier)
    (preid : Option String) (skipUnstable : Option Bool) : Option VStr :=
  match recommendedOf env projectRoot tagPfx (skipUnstable.getD false) preset with
  | none => none
  | some cat =>
      let effective : ReleaseIdentifier :=
        if releaseType = some ReleaseIdentifier.prerelease then
          if (parse since).map (fun v => v.prerelease.length) = some 0 then preOf cat
          else ReleaseIdentifier.prerelease
        else catToRelease cat
      inc since effective preid

/-- Function _manualBump of try-bump.ts: a plain semver increment of since
by the release type (an empty preid is dropped, which incPreStep already
does). -/
def _manualBump (since : VStr) (releaseType : ReleaseIdentifier)
    (preid : Option String) : Option VStr :=
  inc since releaseType preid

/-- Function shouldCommitBeCalculated of try-bump.ts: parse the commit's
type and keep the commit unless that type matches a skipped type. -/
def shouldCommitBeCalculated (env : Env) (commit : String)
    (commitParserOptions : Option CommitParserOptions)
    (skipCommitTypes : List String) : Bool :=
  let type := env.parseCommitType (commitParserOptions.getD emptyCommitParserOptions) commit
  let shouldSkip := skipCommitTypes.any fun typeToSkip => type == some typeToSkip
  !shouldSkip

/-- The per-dependency body of _getDependencyVersions: resolve the
dependency's window anchored at the primary range ref, filter its commits;
no qualifying commit yields a null update, an untagged dependency yields a
fresh automatic bump (no releaseType and no preid are forwarded to it),
a tagged one yields its last version verbatim. -/
def dependencyVersionOf (env : Env) (commitParserOptions : Option CommitParserOptions)
    (preset : PresetOpt) (lastVersionGitRef : String)
    (releaseType : Option ReleaseIdentifier) (skipCommitTypes : List String)
    (versionTagPfx : Option String) (syncVersions : Bool) (projectName : String)
    (preid : Option String) (skipUnstable : Option Bool)
    (dep : DependencyRoot) : Version :=
  let tagPfx := env.formatTagPfx versionTagPfx dep.name syncVersions
  let pv := getProjectVersion env tagPfx dep.path releaseType (some lastVersionGitRef)
    projectName preid
  let filteredCommits := pv.commits.filter fun commit =>
    shouldCommitBeCalculated env commit commitParserOptions skipCommitTypes
  if filteredCommits.length = 0 then
    { type := "dependency", version := none, dependencyName := dep.name }
  else if _isInitialVersion pv.lastVersion then
    { type := "dependency"
      version := _semverBump env pv.lastVersion preset dep.path tagPfx none none skipUnstable
      dependencyName := dep.name }
  else
    { type := "dependency", version := some pv.lastVersion, dependencyName := dep.name }

/-- Function _getDependencyVersions of try-bump.ts: a forkJoin over the
dependency roots (an empty input joins to an empty list). -/
def _getDependencyVersions (env : Env) (commitParserOptions : Option CommitParserOptions)
    (preset : PresetOpt) (lastVersionGitRef : String)
    (dependencyRoots : List DependencyRoot)
    (releaseType : Option ReleaseIdentifier) (skipCommitTypes : List String)
    (versionTagPfx : Option String) (syncVersions : Bool) (projectName : String)
    (preid : Option String) (skipUnstable : Option Bool) : List Version :=
  dependencyRoots.map
    (dependencyVersionOf env commitParserOptions preset lastVersionGitRef releaseType
      skipCommitTypes versionTagPfx syncVersions projectName preid skipUnstable)

/-- Function _isNewVersion of try-bump.ts. -/
def _isNewVersion (v : Version) : Bool :=
  !(v.version == none) && !(v.version == some initialVersion)

/-- The caller-facing arguments of tryBump (its destructured parameter). -/
structure TryBumpArgs where
  commitParserOptions : Option CommitParserOptions
  preset : PresetOpt
  projectRoot : String
  tagPfx : String
  dependencyRoots : List DependencyRoot
  releaseType : Option ReleaseIdentifier
  preid : Option String
  skipUnstable : Option Bool
  versionTagPfx : Option String
  syncVersions : Bool
  allowEmptyRelease : Option Bool
  skipCommitTypes : List String
  projectName : String

/-- The automatic branch of tryBump (the code after the manual-override
early return): join the primary automatic bump with the dependency
aggregation (to which skipUnstable is not forwarded), filter the updates,
force a patch bump when the primary bump is null but updates exist, and
suppress an empty release unless allowEmptyRelease is set. -/
def tryBumpAuto (env : Env) (a : TryBumpArgs) (lastVersion : VStr)
    (commits : List String) (lastVersionGitRef : String) : Option NewVersion :=
  let projectVersion := _semverBump env lastVersion a.preset a.projectRoot a.tagPfx
    a.releaseType a.preid a.skipUnstable
  let dependencyVersions := _getDependencyVersions env a.commitParserOptions a.preset
    lastVersionGitRef a.dependencyRoots a.releaseType a.skipCommitTypes a.versionTagPfx
    a.syncVersions a.projectName a.preid none
  let dependencyUpdates := dependencyVersions.filter _isNewVersion
  let newVersion : NewVersion :=
    { version := projectVersion.getD lastVersion
      previousVersion := lastVersion
      dependencyUpdates := dependencyUpdates }
  if projectVersion = none ∧ dependencyUpdates.length ≠ 0 then
    match _manualBump lastVersion ReleaseIdentifier.patch a.preid with
    | some version => some { newVersion with version := version, previousVersion := lastVersion }
    | none => none
  else
    let filteredCommits := commits.filter fun commit =>
      shouldCommitBeCalculated env commit a.commitParserOptions a.skipCommitTypes
    if dependencyUpdates.length = 0 ∧ filteredCommits.length = 0 ∧
        a.allowEmptyRelease.getD false = false then
      none
    else
      some newVersion

/-- Function tryBump of try-bump.ts: resolve the primary window, take the
manual-override branch when a non-prerelease release type was supplied,
otherwise the automatic branch. -/
def tryBump (env : Env) (a : TryBumpArgs) : Option NewVersion :=
  let pv := getProjectVersion env a.tagPfx a.projectRoot a.releaseType none a.projectName a.preid
  match a.releaseType with
  | some rt =>
      if rt = ReleaseIdentifier.prerelease then
        tryBumpAuto env a pv.lastVersion pv.commits pv.lastVersionGitRef
      else
        match _manualBump pv.lastVersion rt a.preid with
        | some version =>
            some { version := version, previousVersion := pv.lastVersion, dependencyUpdates := [] }
        | none => none
  | none => tryBumpAuto env a pv.lastVersion pv.commits pv.lastVersionGitRef

/-- The primary project's window as resolved inside tryBump. -/
def resolvedWindow (env : Env) (a : TryBumpArgs) : ProjectVersion :=
  getProjectVersion env a.tagPfx a.projectRoot a.releaseType none a.projectName a.preid

/-- The primary project's resolved last version. -/
def resolvedLastVersion (env : Env) (a : TryBumpArgs) : VStr :=
  (resolvedWindow env a).lastVersion

/-- The primary project's resolved range reference. -/
def resolvedGitRef (env : Env) (a : TryBumpArgs) : String :=
  (resolvedWindow env a).lastVersionGitRef

/-- The primary project's automatic bump as computed inside tryBump. -/
def primaryBump (env : Env) (a : TryBumpArgs) : Option VStr :=
  _semverBump env (resolvedLastVersion env a) a.preset a.projectRoot a.tagPfx
    a.releaseType a.preid a.skipUnstable

/-- The filtered dependency updates as computed inside tryBump. -/
def primaryDependencyUpdates (env : Env) (a : TryBumpArgs) : List Version :=
  (_getDependencyVersions env a.commitParserOptions a.preset (resolvedGitRef env a)
    a.dependencyRoots a.releaseType a.skipCommitTypes a.versionTagPfx a.syncVersions
    a.projectName a.preid none).filter _isNewVersion

/-- The primary project's qualifying commits as computed inside tryBump. -/
def primaryFilteredCommits (env : Env) (a : TryBumpArgs) : List String :=
  (resolvedWindow env a).commits.filter fun commit =>
    shouldCommitBeCalculated env commit a.commitParserOptions a.skipCommitTypes

/-! Concrete environments and arguments used to evaluate the engine on
closed inputs. -/

/-- Shorthand for a parsed version string. -/
def semverV (major minor patch : Nat) (pre : List PreId) : VStr :=
  VStr.valid { major := major, minor := minor, patch := patch, prerelease := pre }

/-- Baseline arguments: automatic mode, no dependencies, chore skipped. -/
def argsBase : TryBumpArgs :=
  { commitParserOptions := none
    preset := PresetOpt.str "angular"
    projectRoot := "apps/demo"
    tagPfx := "v"
    dependencyRoots := []
    releaseType := none
    preid := none
    skipUnstable := none
    versionTagPfx := none
    syncVersions := false
    allowEmptyRelease := none
    skipCommitTypes := ["chore"]
    projectName := "demo" }

/-- Environment with a 1.2.3 tag, no commits and no recommendation. -/
def envA : Env :=
  { getLastVersion := fun _ _ _ => some (semverV 1 2 3 [])
    getFirstCommitRef := "ROOT"
    getCommits := fun _ _ => []
    formatTag := fun tagP _ => tagP ++ "tag"
    formatTagPfx := fun _ name _ => name
    recommendedBump := fun _ _ _ _ _ => none
    parseCommitType := fun _ _ => none }

/-- Arguments requesting an explicit major release. -/
def argsA : TryBumpArgs :=
  { argsBase with releaseType := some ReleaseIdentifier.major }

/-- The result of the manual major bump over envA. -/
def nvA : NewVersion :=
  { version := semverV 2 0 0 []
    previousVersion := semverV 1 2 3 []
    dependencyUpdates := [] }

/-- Environment whose tag lookup fails. -/
def envB : Env :=
  { envA with getLastVersion := fun _ _ _ => none }

/-- Environment with one commit of the skipped type chore. -/
def envC : Env :=
  { envA with
    getCommits := fun _ _ => ["chore: cleanup"]
    parseCommitType := fun _ c => if c = "chore: cleanup" then some "chore" else none }

/-- Environment with a tagged dependency libA that has qualifying commits
since the primary range reference, and no primary recommendation. -/
def envD : Env :=
  { envA with
    getLastVersion := fun tagP _ _ =>
      if tagP = "libA" then some (semverV 2 0 0 []) else some (semverV 1 2 3 [])
    getCommits := fun root _ => if root = "libs/a" then ["fix: y"] else []
    parseCommitType := fun _ c => if c = "fix: y" then some "fix" else none }

/-- Arguments declaring the libA dependency, automatic mode. -/
def argsD : TryBumpArgs :=
  { argsBase with dependencyRoots := [{ path := "libs/a", name := "libA" }] }

/-- The dependency update envD produces for libA. -/
def uD : Version :=
  { type := "dependency", version := some (semverV 2 0 0 []), dependencyName := "libA" }

/-- The forced-patch result over envD. -/
def nvD : NewVersion :=
  { version := semverV 1 2 4 []
    previousVersion := semverV 1 2 3 []
    dependencyUpdates := [uD] }

/-- A dependency root without qualifying commits under envD. -/
def depB : DependencyRoot := { path := "libs/b", name := "libB" }

/-- Environment recommending a minor bump. -/
def envE : Env :=
  { envA with recommendedBump := fun _ _ _ _ _ => some ReleaseCat.minor }

/-- Environment with one qualifying fix commit and no recommendation. -/
def envF : Env :=
  { envA with
    getCommits := fun _ _ => ["fix: z"]
    parseCommitType := fun _ c => if c = "fix: z" then some "fix" else none }

/-- Environment with an untagged dependency libG carrying a feat commit;
the recommendation collaborator answers only when skipUnstable is false. -/
def envG : Env :=
  { envA with
    getLastVersion := fun tagP _ _ =>
      if tagP = "libG" then none else some (semverV 1 2 3 [])
    getCommits := fun root _ => if root = "libs/g" then ["feat: g"] else []
    parseCommitType := fun _ c => if c = "feat: g" then some "feat" else none
    recommendedBump := fun _ _ skipU _ _ =>
      if skipU then none else some ReleaseCat.minor }

/-- The libG dependency root. -/
def depG : DependencyRoot := { path := "libs/g", name := "libG" }

/-- Arguments passing a prerelease request, a preid and skipUnstable,
none of which may reach a dependency's fresh bump. -/
def argsG : TryBumpArgs :=
  { argsBase with
    dependencyRoots := [depG]
    releaseType := some ReleaseIdentifier.prerelease
    preid := some "alpha"
    skipUnstable := some true }

/-- Environment sitting on the prerelease version 1.2.3-beta.1 with a
patch recommendation. -/
def envCex : Env :=
  { envA with
    getLastVersion := fun _ _ _ => some (semverV 1 2 3 [PreId.str "beta", PreId.num 1])
    recommendedBump := fun _ _ _ _ _ => some ReleaseCat.patch }

/-- Arguments requesting a prerelease with preid alpha, allowing an empty
release. -/
def argsCex : TryBumpArgs :=
  { argsBase with
    releaseType := some ReleaseIdentifier.prerelease
    preid := some "alpha"
    allowEmptyRelease := some true }

/-! Ordering lemmas for the semver model. -/

theorem natCmp_self (n : Nat) : natCmp n n = Ordering.eq := by
  simp [natCmp]

theorem natCmp_eq_lt {a b : Nat} (h : a < b) : natCmp a b = Ordering.lt := by
  simp [natCmp, h]

theorem natCmp_eq_eq {a b : Nat} (h : a = b) : natCmp a b = Ordering.eq := by
  subst h; exact natCmp_self a

theorem charListCmp_self (l : List Char) : charListCmp l l = Ordering.eq := by
  induction l with
  | nil => rfl
  | cons c cs ih => simp [charListCmp, natCmp_self, ih]

theorem strCmp_self (s : String) : strCmp s s = Ordering.eq := by
  simp [strCmp, charListCmp_self]

theorem cmpId_self (p : PreId) : cmpId p p = Ordering.eq := by
  cases p <;> simp [cmpId, natCmp_self, strCmp_self]

theorem cmpPreList_self (l : List PreId) : cmpPreList l l = Ordering.eq := by
  induction l with
  | nil => rfl
  | cons p ps ih => simp [cmpPreList, cmpId_self, ih, ordThen]

theorem compareSemVer_self (v : SemVer) : compareSemVer v v = Ordering.eq := by
  unfold compareSemVer
  rw [natCmp_self, natCmp_self, natCmp_self]
  cases hp : v.prerelease with
  | nil => rfl
  | cons p ps => simp [ordThen, cmpPreList_self]

theorem semverLeB_refl (v : SemVer) : semverLeB v v = true := by
  simp [semverLeB, compareSemVer_self]

theorem vstrLe_refl (s : VStr) : vstrLe s s = true := by
  cases s with
  | valid v => simpa [vstrLe] using semverLeB_refl v
  | invalid s => simp [vstrLe]

theorem compareSemVer_lt_of_major {a b : SemVer} (h : a.major < b.major) :
    compareSemVer a b = Ordering.lt := by
  unfold compareSemVer
  rw [natCmp_eq_lt h]
  rfl

theorem compareSemVer_lt_of_minor {a b : SemVer} (h1 : a.major = b.major)
    (h2 : a.minor < b.minor) : compareSemVer a b = Ordering.lt := by
  unfold compareSemVer
  rw [natCmp_eq_eq h1, natCmp_eq_lt h2]
  rfl

theorem compareSemVer_lt_of_patch {a b : SemVer} (h1 : a.major = b.major)
    (h2 : a.minor = b.minor) (h3 : a.patch < b.patch) :
    compareSemVer a b = Ordering.lt := by
  unfold compareSemVer
  rw [natCmp_eq_eq h1, natCmp_eq_eq h2, natCmp_eq_lt h3]
  rfl

theorem semverLeB_of_lt {a b : SemVer} (h : compareSemVer a b = Ordering.lt) :
    semverLeB a b = true := by
  simp [semverLeB, h]

theorem semverLeB_of_triple_eq {a b : SemVer} (h1 : a.major = b.major)
    (h2 : a.minor = b.minor) (h3 : a.patch = b.patch) (h4 : b.prerelease = []) :
    semverLeB a b = true := by
  unfold semverLeB compareSemVer
  rw [natCmp_eq_eq h1, natCmp_eq_eq h2, natCmp_eq_eq h3, h4]
  cases ha : a.prerelease <;> rfl

/-- Any increment other than plain prerelease never moves a version
downwards under standard semver ordering. -/
theorem incRelease_le (v : SemVer) (rt : ReleaseIdentifier) (id : Option String)
    (h : rt ≠ ReleaseIdentifier.prerelease) :
    semverLeB v (incRelease v rt id) = true := by
  cases rt with
  | prerelease => exact absurd rfl h
  | major =>
      show semverLeB v (incMajor v) = true
      unfold incMajor
      by_cases hc : v.minor ≠ 0 ∨ v.patch ≠ 0 ∨ v.prerelease = []
      · rw [if_pos hc]
        exact semverLeB_of_lt (compareSemVer_lt_of_major (Nat.lt_succ_self _))
      · rw [if_neg hc]
        push_neg at hc
        exact semverLeB_of_triple_eq rfl hc.1 hc.2.1 rfl
  | minor =>
      show semverLeB v (incMinor v) = true
      unfold incMinor
      by_cases hc : v.patch ≠ 0 ∨ v.prerelease = []
      · rw [if_pos hc]
        exact semverLeB_of_lt (compareSemVer_lt_of_minor rfl (Nat.lt_succ_self _))
      · rw [if_neg hc]
        push_neg at hc
        exact semverLeB_of_triple_eq rfl rfl hc.1 rfl
  | patch =>
      show semverLeB v (incPatch v) = true
      unfold incPatch
      by_cases hc : v.prerelease = []
      · rw [if_pos hc]
        exact semverLeB_of_lt (compareSemVer_lt_of_patch rfl rfl (Nat.lt_succ_self _))
      · rw [if_neg hc]
        exact semverLeB_of_triple_eq rfl rfl rfl rfl
  | premajor =>
      exact semverLeB_of_lt (compareSemVer_lt_of_major (Nat.lt_succ_self _))
  | preminor =>
      exact semverLeB_of_lt (compareSemVer_lt_of_minor rfl (Nat.lt_succ_self _))
  | prepatch =>
      exact semverLeB_of_lt (compareSemVer_lt_of_patch rfl rfl (Nat.lt_succ_self _))

/-- Lifting of incRelease_le to version strings through inc. -/
theorem vstrLe_of_inc {s t : VStr} {rt : ReleaseIdentifier} {id : Option String}
    (h1 : inc s rt id = some t) (h2 : rt ≠ ReleaseIdentifier.prerelease) :
    vstrLe s t = true := by
  cases s with
  | invalid s' => simp [inc, parse] at h1
  | valid v =>
      simp only [inc, parse, Option.some.injEq] at h1
      subst h1
      exact incRelease_le v rt id h2

/-- When no release type is requested, a successful automatic bump never
moves the version downwards: the effective release type is the recommended
plain category. -/
theorem semverBump_le {env : Env} {since : VStr} {preset : PresetOpt}
    {root tagP : String} {preid : Option String} {skipU : Option Bool} {w : VStr}
    (h : _semverBump env since preset root tagP none preid skipU = some w) :
    vstrLe since w = true := by
  unfold _semverBump at h
  cases hr : recommendedOf env root tagP (skipU.getD false) preset with
  | none => rw [hr] at h; exact absurd h (by simp)
  | some cat =>
      rw [hr] at h
      have h' : inc since (catToRelease cat) preid = some w := by
        simpa using h
      exact vstrLe_of_inc h' (by cases cat <;> simp [catToRelease])

/-- Every successful result of the automatic branch reports the resolved
last version as previousVersion, and, when no release type was requested,
a version at least as large under semver ordering. -/
theorem tryBumpAuto_some (env : Env) (a : TryBumpArgs) (lastVersion : VStr)
    (commits : List String) (gitRef : String) (nv : NewVersion)
    (h : tryBumpAuto env a lastVersion commits gitRef = some nv) :
    nv.previousVersion = lastVersion ∧
      (a.releaseType = none → vstrLe lastVersion nv.version = true) := by
  unfold tryBumpAuto at h
  simp only [] at h
  split at h
  · cases hm : _manualBump lastVersion ReleaseIdentifier.patch a.preid with
    | none => rw [hm] at h; cases h
    | some version =>
        rw [hm] at h
        simp only [Option.some.injEq] at h
        subst h
        refine ⟨rfl, fun _ => ?_⟩
        exact vstrLe_of_inc hm (by simp)
  · split at h
    · cases h
    · simp only [Option.some.injEq] at h
      subst h
      refine ⟨rfl, fun hmode => ?_⟩
      rw [hmode]
      cases hp : _semverBump env lastVersion a.preset a.projectRoot a.tagPfx none
          a.preid a.skipUnstable with
      | none => simp [hp, vstrLe_refl]
      | some w => simp only [hp, Option.getD_some]; exact semverBump_le hp

/-- C4 (amended): for every invocation of tryBump that returns a
NewVersion, the returned previousVersion equals the primary project's
resolved last version (the last tag's version, or the sentinel 0.0.0 when
no tag exists); and whenever the caller did not request releaseType
prerelease, the returned version is semver-greater-than-or-equal to
previousVersion under standard semver ordering.  (For a requested
prerelease with an explicit preid the code can move downwards, see the
counterexample.) -/
theorem tryBump_previous_and_le (env : Env) (a : TryBumpArgs) (nv : NewVersion)
    (h : tryBump env a = some nv) :
    nv.previousVersion = resolvedLastVersion env a ∧
      (a.releaseType ≠ some ReleaseIdentifier.prerelease →
        vstrLe nv.previousVersion nv.version = true) := by
  unfold tryBump at h
  simp only [] at h
  cases hrt : a.releaseType with
  | none =>
      simp only [hrt] at h
      have hsome := tryBumpAuto_some env a _ _ _ nv h
      refine ⟨?_, fun _ => ?_⟩
      · simpa [resolvedLastVersion, resolvedWindow, hrt] using hsome.1
      · rw [hsome.1]
        exact hsome.2 hrt
  | some rt =>
      by_cases hpre : rt = ReleaseIdentifier.prerelease
      · subst hpre
        simp only [hrt, reduceIte] at h
        have hsome := tryBumpAuto_some env a _ _ _ nv h
        refine ⟨?_, fun hne => ?_⟩
        · simpa [resolvedLastVersion, resolvedWindow, hrt] using hsome.1
        · exact absurd rfl hne
      · simp only [hrt, if_neg hpre] at h
        cases hm : _manualBump (getProjectVersion env a.tagPfx a.projectRoot (some rt)
            none a.projectName a.preid).lastVersion rt a.preid with
        | none => rw [hm] at h; simp at h
        | some version =>
            rw [hm] at h
            simp only [Option.some.injEq] at h
            subst h
            refine ⟨?_, fun _ => ?_⟩
            · simp [resolvedLastVersion, resolvedWindow, hrt]
            · exact vstrLe_of_inc hm hpre

/-- The patch increment ignores the prerelease identifier argument. -/
theorem inc_patch_ignores_id (s : VStr) (id : Option String) :
    inc s ReleaseIdentifier.patch id = inc s ReleaseIdentifier.patch none := by
  cases s <;> rfl

/-- In automatic mode (no release type, or a requested prerelease), tryBump
is the automatic branch applied to the resolved window. -/
theorem tryBump_auto_mode (env : Env) (a : TryBumpArgs)
    (hmode : a.releaseType = none ∨ a.releaseType = some ReleaseIdentifier.prerelease) :
    tryBump env a = tryBumpAuto env a (resolvedLastVersion env a)
      (resolvedWindow env a).commits (resolvedGitRef env a) := by
  unfold tryBump
  cases hmode with
  | inl h => simp only [resolvedLastVersion, resolvedGitRef, resolvedWindow, h]
  | inr h => simp only [resolvedLastVersion, resolvedGitRef, resolvedWindow, h, reduceIte]

/-- A commit whose parsed type is among the skipped types is dropped by the
commit classifier. -/
theorem shouldCommit_false {env : Env} {commit : String}
    {cpo : Option CommitParserOptions} {skipTypes : List String} {t : String}
    (h1 : env.parseCommitType (cpo.getD emptyCommitParserOptions) commit = some t)
    (h2 : t ∈ skipTypes) :
    shouldCommitBeCalculated env commit cpo skipTypes = false := by
  unfold shouldCommitBeCalculated
  simp only [h1, Bool.not_eq_false', List.any_eq_true]
  exact ⟨t, h2, by simp⟩

/-- The forced-patch step of the automatic branch, isolated. -/
theorem tryBumpAuto_forced_patch (env : Env) (a : TryBumpArgs) (lastVersion : VStr)
    (commits : List String) (gitRef : String)
    (hbump : _semverBump env lastVersion a.preset a.projectRoot a.tagPfx a.releaseType
      a.preid a.skipUnstable = none)
    (hdeps : (_getDependencyVersions env a.commitParserOptions a.preset gitRef
      a.dependencyRoots a.releaseType a.skipCommitTypes a.versionTagPfx a.syncVersions
      a.projectName a.preid none).filter _isNewVersion ≠ []) :
    tryBumpAuto env a lastVersion commits gitRef =
      (inc lastVersion ReleaseIdentifier.patch none).map fun version =>
        { version := version
          previousVersion := lastVersion
          dependencyUpdates := (_getDependencyVersions env a.commitParserOptions a.preset
            gitRef a.dependencyRoots a.releaseType a.skipCommitTypes a.versionTagPfx
            a.syncVersions a.projectName a.preid none).filter _isNewVersion } := by
  unfold tryBumpAuto
  simp only []
  rw [if_pos ⟨hbump, fun hlen => hdeps (List.length_eq_zero.mp hlen)⟩]
  unfold _manualBump
  rw [← inc_patch_ignores_id lastVersion a.preid]
  cases hm : inc lastVersion ReleaseIdentifier.patch a.preid with
  | none => rfl
  | some version => rfl

/-- Every dependency update carried by a successful automatic result
passed the _isNewVersion filter. -/
theorem tryBumpAuto_updates_clean (env : Env) (a : TryBumpArgs) (lastVersion : VStr)
    (commits : List String) (gitRef : String) (nv : NewVersion)
    (h : tryBumpAuto env a lastVersion commits gitRef = some nv) :
    ∀ u ∈ nv.dependencyUpdates, u.version ≠ none ∧ u.version ≠ some initialVersion := by
  have main : ∀ u ∈ (_getDependencyVersions env a.commitParserOptions a.preset gitRef
      a.dependencyRoots a.releaseType a.skipCommitTypes a.versionTagPfx a.syncVersions
      a.projectName a.preid none).filter _isNewVersion,
      u.version ≠ none ∧ u.version ≠ some initialVersion := by
    intro u hu
    have hnew : _isNewVersion u = true := (List.mem_filter.mp hu).2
    unfold _isNewVersion at hnew
    simp only [Bool.and_eq_true, Bool.not_eq_true', beq_eq_false_iff_ne] at hnew
    exact hnew
  unfold tryBumpAuto at h
  simp only [] at h
  split at h
  · cases hm : _manualBump lastVersion ReleaseIdentifier.patch a.preid with
    | none => rw [hm] at h; cases h
    | some version =>
        rw [hm] at h
        simp only [Option.some.injEq] at h
        subst h
        exact main
  · split at h
    · cases h
    · simp only [Option.some.injEq] at h
      subst h
      exact main

/-- C1: when the caller supplies a release type other than prerelease, the
result is exactly the manual bump of the resolved last version: a
successful increment yields that version with previousVersion the last
version and an empty dependency list, a failed increment yields none
(commit analysis and dependency aggregation are bypassed). -/
theorem tryBump_manual_override (env : Env) (a : TryBumpArgs) (rt : ReleaseIdentifier)
    (h1 : a.releaseType = some rt) (h2 : rt ≠ ReleaseIdentifier.prerelease) :
    tryBump env a =
      (_manualBump (resolvedLastVersion env a) rt a.preid).map fun version =>
        { version := version
          previousVersion := resolvedLastVersion env a
          dependencyUpdates := [] } := by
  unfold tryBump
  simp only [resolvedLastVersion, resolvedWindow, h1, if_neg h2]
  cases hm : _manualBump (getProjectVersion env a.tagPfx a.projectRoot (some rt) none
      a.projectName a.preid).lastVersion rt a.preid with
  | none => rfl
  | some version => rfl

/-- C2: in the automatic path, when the primary bump yields null and
filtered dependency updates exist, the result carries the patch increment
of the resolved last version (and is none when that increment fails). -/
theorem tryBump_forced_patch (env : Env) (a : TryBumpArgs)
    (hmode : a.releaseType = none ∨ a.releaseType = some ReleaseIdentifier.prerelease)
    (hbump : primaryBump env a = none)
    (hdeps : primaryDependencyUpdates env a ≠ []) :
    tryBump env a =
      (inc (resolvedLastVersion env a) ReleaseIdentifier.patch none).map fun version =>
        { version := version
          previousVersion := resolvedLastVersion env a
          dependencyUpdates := primaryDependencyUpdates env a } := by
  rw [tryBump_auto_mode env a hmode]
  exact tryBumpAuto_forced_patch env a _ _ _ hbump hdeps

/-- C3: in the automatic path, with no qualifying dependency updates, all
commits of the primary window parsed to a type listed in skipCommitTypes,
and allowEmptyRelease unset or false, tryBump returns none. -/
theorem tryBump_empty_release (env : Env) (a : TryBumpArgs)
    (hmode : a.releaseType = none ∨ a.releaseType = some ReleaseIdentifier.prerelease)
    (hdeps : primaryDependencyUpdates env a = [])
    (hskip : ∀ commit ∈ (resolvedWindow env a).commits,
      ∃ t, env.parseCommitType (a.commitParserOptions.getD emptyCommitParserOptions)
          commit = some t ∧ t ∈ a.skipCommitTypes)
    (hallow : a.allowEmptyRelease.getD false = false) :
    tryBump env a = none := by
  rw [tryBump_auto_mode env a hmode]
  unfold tryBumpAuto
  simp only []
  have hdu : (_getDependencyVersions env a.commitParserOptions a.preset
      (resolvedGitRef env a) a.dependencyRoots a.releaseType a.skipCommitTypes
      a.versionTagPfx a.syncVersions a.projectName a.preid none).filter _isNewVersion
      = [] := hdeps
  rw [hdu]
  rw [if_neg (by simp)]
  have hfc : (resolvedWindow env a).commits.filter (fun commit =>
      shouldCommitBeCalculated env commit a.commitParserOptions a.skipCommitTypes) = [] := by
    rw [List.filter_eq_nil_iff]
    intro c hc
    obtain ⟨t, ht, hmem⟩ := hskip c hc
    simp [shouldCommit_false ht hmem]
  rw [hfc]
  rw [if_pos ⟨rfl, rfl, hallow⟩]

/-- C9: in the automatic path, when the primary bump yields null, there
are no qualifying dependency updates, and empty-release suppression does
not fire, tryBump returns the last version unchanged (not none). -/
theorem tryBump_unchanged_fallback (env : Env) (a : TryBumpArgs)
    (hmode : a.releaseType = none ∨ a.releaseType = some ReleaseIdentifier.prerelease)
    (hbump : primaryBump env a = none)
    (hdeps : primaryDependencyUpdates env a = [])
    (hgo : a.allowEmptyRelease.getD false = true ∨ primaryFilteredCommits env a ≠ []) :
    tryBump env a =
      some { version := resolvedLastVersion env a
             previousVersion := resolvedLastVersion env a
             dependencyUpdates := [] } := by
  rw [tryBump_auto_mode env a hmode]
  unfold tryBumpAuto
  simp only []
  have hdu : (_getDependencyVersions env a.commitParserOptions a.preset
      (resolvedGitRef env a) a.dependencyRoots a.releaseType a.skipCommitTypes
      a.versionTagPfx a.syncVersions a.projectName a.preid none).filter _isNewVersion
      = [] := hdeps
  rw [hdu]
  rw [if_neg (by simp)]
  rw [if_neg ?_]
  · have hb : _semverBump env (resolvedLastVersion env a) a.preset a.projectRoot a.tagPfx
        a.releaseType a.preid a.skipUnstable = none := hbump
    rw [hb]
    rfl
  · rintro ⟨-, hlen, hfalse⟩
    cases hgo with
    | inl h => simp [h] at hfalse
    | inr h => exact h (List.length_eq_zero.mp hlen)

/-- C5: every dependency update carried by a successful tryBump result has
a non-null version different from the initial-version sentinel. -/
theorem tryBump_updates_clean (env : Env) (a : TryBumpArgs) (nv : NewVersion)
    (h : tryBump env a = some nv) :
    ∀ u ∈ nv.dependencyUpdates, u.version ≠ none ∧ u.version ≠ some initialVersion := by
  unfold tryBump at h
  simp only [] at h
  cases hrt : a.releaseType with
  | none =>
      simp only [hrt] at h
      exact tryBumpAuto_updates_clean env a _ _ _ nv h
  | some rt =>
      by_cases hpre : rt = ReleaseIdentifier.prerelease
      · subst hpre
        simp only [hrt, reduceIte] at h
        exact tryBumpAuto_updates_clean env a _ _ _ nv h
      · simp only [hrt, if_neg hpre] at h
        cases hm : _manualBump (getProjectVersion env a.tagPfx a.projectRoot (some rt)
            none a.projectName a.preid).lastVersion rt a.preid with
        | none => rw [hm] at h; cases h
        | some version =>
            rw [hm] at h
            simp only [Option.some.injEq] at h
            subst h
            intro u hu
            simp at hu

/-- C6: the automatic bump yields null when no category is recommended;
with a recommended category and a requested prerelease release type, a
parseable since with no prerelease component is incremented by the
pre-form of the recommended category, and a since already carrying a
prerelease component by plain prerelease. -/
theorem semverBump_prerelease_chain (env : Env) (since : VStr) (preset : PresetOpt)
    (projectRoot tagPfx : String) (releaseType : Option ReleaseIdentifier)
    (preid : Option String) (skipUnstable : Option Bool) :
    (recommendedOf env projectRoot tagPfx (skipUnstable.getD false) preset = none →
      _semverBump env since preset projectRoot tagPfx releaseType preid skipUnstable = none)
    ∧ (∀ cat, recommendedOf env projectRoot tagPfx (skipUnstable.getD false) preset = some cat →
        ∀ v, parse since = some v →
          _semverBump env since preset projectRoot tagPfx (some ReleaseIdentifier.prerelease)
              preid skipUnstable =
            inc since (if v.prerelease = [] then preOf cat else ReleaseIdentifier.prerelease)
              preid) := by
  constructor
  · intro hr
    unfold _semverBump
    simp only [hr]
  · intro cat hr v hv
    unfold _semverBump
    simp only [hr, reduceIte, hv, Option.map_some', Option.some.injEq, List.length_eq_zero]

/-- C7: the window resolver falls back to the sentinel and warns when the
tag lookup fails; the range reference is the first commit ref exactly when
the resolved last version is the sentinel, and the formatted tag
otherwise; commits are fetched since the explicit override when present,
else since the derived reference; the override changes neither the
resolved last version nor the returned range reference. -/
theorem getProjectVersion_window (env : Env) (tagPfx projectRoot : String)
    (releaseType : Option ReleaseIdentifier) (since : Option String)
    (projectName : String) (preid : Option String) :
    (env.getLastVersion tagPfx preid releaseType = none →
      (getProjectVersion env tagPfx projectRoot releaseType since projectName
          preid).lastVersion = initialVersion ∧
        (getProjectVersion env tagPfx projectRoot releaseType since projectName
          preid).warnings ≠ [])
    ∧ ((getProjectVersion env tagPfx projectRoot releaseType since projectName
          preid).lastVersion = initialVersion →
        (getProjectVersion env tagPfx projectRoot releaseType since projectName
          preid).lastVersionGitRef = env.getFirstCommitRef)
    ∧ ((getProjectVersion env tagPfx projectRoot releaseType since projectName
          preid).lastVersion ≠ initialVersion →
        (getProjectVersion env tagPfx projectRoot releaseType since projectName
            preid).lastVersionGitRef
          = env.formatTag tagPfx (getProjectVersion env tagPfx projectRoot releaseType
              since projectName preid).lastVersion)
    ∧ ((getProjectVersion env tagPfx projectRoot releaseType since projectName
          preid).commits
        = env.getCommits projectRoot (since.getD (getProjectVersion env tagPfx projectRoot
            releaseType since projectName preid).lastVersionGitRef))
    ∧ (∀ s : String,
        (getProjectVersion env tagPfx projectRoot releaseType (some s) projectName
            preid).lastVersion
          = (getProjectVersion env tagPfx projectRoot releaseType none projectName
              preid).lastVersion
        ∧ (getProjectVersion env tagPfx projectRoot releaseType (some s) projectName
            preid).lastVersionGitRef
          = (getProjectVersion env tagPfx projectRoot releaseType none projectName
              preid).lastVersionGitRef
        ∧ (getProjectVersion env tagPfx projectRoot releaseType (some s) projectName
            preid).commits = env.getCommits projectRoot s) := by
  refine ⟨?_, ?_, ?_, rfl, fun s => ⟨rfl, rfl, rfl⟩⟩
  · intro h
    simp [getProjectVersion, h]
  · intro h
    simp only [getProjectVersion] at h ⊢
    rw [h]
    simp [_isInitialVersion]
  · intro h
    simp only [getProjectVersion] at h ⊢
    simp [_isInitialVersion, h]

/-- C8: the dependency aggregator maps the roots in input order (an empty
input yields an empty output, not an error); per root, commits are
fetched since the primary project's range reference and filtered by the
commit classifier; no qualifying commit yields a null update, an untagged
dependency yields a fresh automatic bump, a tagged one its existing last
version verbatim. -/
theorem getDependencyVersions_aggregation (env : Env)
    (cpo : Option CommitParserOptions) (preset : PresetOpt) (lastVersionGitRef : String)
    (roots : List DependencyRoot) (releaseType : Option ReleaseIdentifier)
    (skipCommitTypes : List String) (versionTagPfx : Option String) (syncVersions : Bool)
    (projectName : String) (preid : Option String) (skipUnstable : Option Bool) :
    _getDependencyVersions env cpo preset lastVersionGitRef [] releaseType skipCommitTypes
        versionTagPfx syncVersions projectName preid skipUnstable = []
    ∧ (_getDependencyVersions env cpo preset lastVersionGitRef roots releaseType
        skipCommitTypes versionTagPfx syncVersions projectName preid skipUnstable).length
        = roots.length
    ∧ (∀ i : Nat, ∀ h1 : i < roots.length, ∀ h2 : i < (_getDependencyVersions env cpo
          preset lastVersionGitRef roots releaseType skipCommitTypes versionTagPfx
          syncVersions projectName preid skipUnstable).length,
        (_getDependencyVersions env cpo preset lastVersionGitRef roots releaseType
            skipCommitTypes versionTagPfx syncVersions projectName preid skipUnstable).get
            ⟨i, h2⟩
          = dependencyVersionOf env cpo preset lastVersionGitRef releaseType skipCommitTypes
              versionTagPfx syncVersions projectName preid skipUnstable (roots.get ⟨i, h1⟩))
    ∧ (∀ dep : DependencyRoot,
        ((getProjectVersion env (env.formatTagPfx versionTagPfx dep.name syncVersions)
            dep.path releaseType (some lastVersionGitRef) projectName preid).commits.filter
            (fun commit => shouldCommitBeCalculated env commit cpo skipCommitTypes) = [] →
          dependencyVersionOf env cpo preset lastVersionGitRef releaseType skipCommitTypes
              versionTagPfx syncVersions projectName preid skipUnstable dep
            = { type := "dependency", version := none, dependencyName := dep.name })
        ∧ ((getProjectVersion env (env.formatTagPfx versionTagPfx dep.name syncVersions)
            dep.path releaseType (some lastVersionGitRef) projectName preid).commits.filter
            (fun commit => shouldCommitBeCalculated env commit cpo skipCommitTypes) ≠ [] →
          (getProjectVersion env (env.formatTagPfx versionTagPfx dep.name syncVersions)
            dep.path releaseType (some lastVersionGitRef) projectName preid).lastVersion
            = initialVersion →
          dependencyVersionOf env cpo preset lastVersionGitRef releaseType skipCommitTypes
              versionTagPfx syncVersions projectName preid skipUnstable dep
            = { type := "dependency"
                version := _semverBump env (getProjectVersion env
                    (env.formatTagPfx versionTagPfx dep.name syncVersions) dep.path
                    releaseType (some lastVersionGitRef) projectName preid).lastVersion
                  preset dep.path (env.formatTagPfx versionTagPfx dep.name syncVersions)
                  none none skipUnstable
                dependencyName := dep.name })
        ∧ ((getProjectVersion env (env.formatTagPfx versionTagPfx dep.name syncVersions)
            dep.path releaseType (some lastVersionGitRef) projectName preid).commits.filter
            (fun commit => shouldCommitBeCalculated env commit cpo skipCommitTypes) ≠ [] →
          (getProjectVersion env (env.formatTagPfx versionTagPfx dep.name syncVersions)
            dep.path releaseType (some lastVersionGitRef) projectName preid).lastVersion
            ≠ initialVersion →
          dependencyVersionOf env cpo preset lastVersionGitRef releaseType skipCommitTypes
              versionTagPfx syncVersions projectName preid skipUnstable dep
            = { type := "dependency"
                version := some (getProjectVersion env
                    (env.formatTagPfx versionTagPfx dep.name syncVersions) dep.path
                    releaseType (some lastVersionGitRef) projectName preid).lastVersion
                dependencyName := dep.name })) := by
  refine ⟨rfl, by simp [_getDependencyVersions], ?_, ?_⟩
  · intro i h1 h2
    simp [_getDependencyVersions]
  · intro dep
    refine ⟨?_, ?_, ?_⟩
    · intro hempty
      unfold dependencyVersionOf
      simp only []
      rw [if_pos (by rw [hempty]; rfl)]
    · intro hne hinit
      unfold dependencyVersionOf
      simp only []
      rw [if_neg (fun hlen => hne (List.length_eq_zero.mp hlen))]
      rw [if_pos (by simp [_isInitialVersion, hinit])]
    · intro hne hinit
      unfold dependencyVersionOf
      simp only []
      rw [if_neg (fun hlen => hne (List.length_eq_zero.mp hlen))]
      rw [if_neg (by simp [_isInitialVersion, hinit])]

/-- C10: the fresh bump computed for an untagged dependency inside the
automatic branch (which forwards skipUnstable as none to the aggregation)
uses neither the caller's requested release type, nor the preid, nor
skipUnstable: the recommendation collaborator is queried with skipUnstable
false, the prerelease-chain rewrite cannot fire, and the increment carries
no prerelease identifier, whatever the caller passed. -/
theorem dependencyBump_ignores_caller_flags (env : Env) (a : TryBumpArgs)
    (gitRef : String) (dep : DependencyRoot) :
    (_getDependencyVersions env a.commitParserOptions a.preset gitRef a.dependencyRoots
        a.releaseType a.skipCommitTypes a.versionTagPfx a.syncVersions a.projectName
        a.preid none
      = a.dependencyRoots.map (dependencyVersionOf env a.commitParserOptions a.preset
          gitRef a.releaseType a.skipCommitTypes a.versionTagPfx a.syncVersions
          a.projectName a.preid none))
    ∧ ((getProjectVersion env (env.formatTagPfx a.versionTagPfx dep.name a.syncVersions)
          dep.path a.releaseType (some gitRef) a.projectName a.preid).commits.filter
          (fun commit => shouldCommitBeCalculated env commit a.commitParserOptions
            a.skipCommitTypes) ≠ [] →
        (getProjectVersion env (env.formatTagPfx a.versionTagPfx dep.name a.syncVersions)
          dep.path a.releaseType (some gitRef) a.projectName a.preid).lastVersion
          = initialVersion →
        dependencyVersionOf env a.commitParserOptions a.preset gitRef a.releaseType
            a.skipCommitTypes a.versionTagPfx a.syncVersions a.projectName a.preid none dep
          = { type := "dependency"
              version :=
                match recommendedOf env dep.path
                    (env.formatTagPfx a.versionTagPfx dep.name a.syncVersions) false
                    a.preset with
                | none => none
                | some cat => inc initialVersion (catToRelease cat) none
              dependencyName := dep.name }) := by
  refine ⟨rfl, fun hne hinit => ?_⟩
  unfold dependencyVersionOf
  simp only []
  rw [if_neg (fun hlen => hne (List.length_eq_zero.mp hlen))]
  rw [if_pos (by simp [_isInitialVersion, hinit])]
  unfold _semverBump
  rw [hinit]
  simp only [Option.getD_none]
  cases hr : recommendedOf env dep.path
      (env.formatTagPfx a.versionTagPfx dep.name a.syncVersions) false a.preset with
  | none => simp [hr]
  | some cat => simp [hr]

/-- C4 counterexample: with last version 1.2.3-beta.1, a requested
prerelease release type and preid alpha, tryBump succeeds with version
1.2.3-alpha.0, which is strictly below previousVersion 1.2.3-beta.1 under
standard semver ordering, refuting the claimed never-a-downgrade
invariant as stated. -/
theorem tryBump_le_cex :
    tryBump envCex argsCex =
      some { version := semverV 1 2 3 [PreId.str "alpha", PreId.num 0]
             previousVersion := semverV 1 2 3 [PreId.str "beta", PreId.num 1]
             dependencyUpdates := [] }
    ∧ vstrLe (semverV 1 2 3 [PreId.str "beta", PreId.num 1])
        (semverV 1 2 3 [PreId.str "alpha", PreId.num 0]) = false :=
  ⟨by decide, by decide⟩

/-- Witness for C1 at envA and a requested major release. -/
theorem tryBump_manual_override_witness : tryBump envA argsA = some nvA := by
  rw [tryBump_manual_override envA argsA ReleaseIdentifier.major rfl (by decide)]
  rfl

/-- Witness for C2 at envD: the libA update forces a patch bump. -/
theorem tryBump_forced_patch_witness : tryBump envD argsD = some nvD := by
  rw [tryBump_forced_patch envD argsD (Or.inl rfl) rfl (by decide)]
  rfl

/-- Witness for C3 at envC: one chore commit, no updates, no release. -/
theorem tryBump_empty_release_witness : tryBump envC argsBase = none := by
  refine tryBump_empty_release envC argsBase (Or.inl rfl) rfl ?_ rfl
  intro c hc
  have hcomm : (resolvedWindow envC argsBase).commits = ["chore: cleanup"] := rfl
  rw [hcomm] at hc
  have hc' : c = "chore: cleanup" := List.mem_singleton.mp hc
  subst hc'
  exact ⟨"chore", rfl, by decide⟩

/-- Witness for C4 (amended) at envA. -/
theorem tryBump_previous_and_le_witness :
    nvA.previousVersion = resolvedLastVersion envA argsA ∧
      (argsA.releaseType ≠ some ReleaseIdentifier.prerelease →
        vstrLe nvA.previousVersion nvA.version = true) :=
  tryBump_previous_and_le envA argsA nvA (by rfl)

/-- Witness for C5 at envD, on the libA update. -/
theorem tryBump_updates_clean_witness :
    uD.version ≠ none ∧ uD.version ≠ some initialVersion :=
  tryBump_updates_clean envD argsD nvD (by rfl) uD (by decide)

/-- Witness for C6 at envE: stable 1.0.0, recommended minor, requested
prerelease, giving 1.1.0-0. -/
theorem semverBump_prerelease_chain_witness :
    _semverBump envE (semverV 1 0 0 []) (PresetOpt.str "angular") "apps/demo" "v"
      (some ReleaseIdentifier.prerelease) none none
      = some (semverV 1 1 0 [PreId.num 0]) := by
  have h := (semverBump_prerelease_chain envE (semverV 1 0 0 []) (PresetOpt.str "angular")
      "apps/demo" "v" (some ReleaseIdentifier.prerelease) none none).2 ReleaseCat.minor rfl
      { major := 1, minor := 0, patch := 0, prerelease := [] } rfl
  rw [h]
  rfl

/-- Witness for C7 at envB, whose tag lookup fails. -/
theorem getProjectVersion_window_witness :
    (getProjectVersion envB "v" "apps/demo" none none "demo" none).lastVersion
        = initialVersion ∧
      (getProjectVersion envB "v" "apps/demo" none none "demo" none).warnings ≠ [] :=
  (getProjectVersion_window envB "v" "apps/demo" none none "demo" none).1 rfl

/-- Witness for C8 at envD, on the libB root without qualifying commits. -/
theorem getDependencyVersions_aggregation_witness :
    dependencyVersionOf envD none (PresetOpt.str "angular") "vtag" none ["chore"] none
        false "demo" none none depB
      = { type := "dependency", version := none, dependencyName := "libB" } :=
  ((getDependencyVersions_aggregation envD none (PresetOpt.str "angular") "vtag"
      [depB] none ["chore"] none false "demo" none none).2.2.2 depB).1 (by rfl)

/-- Witness for C9 at envF: a qualifying fix commit but no recommendation
and no updates keeps the version unchanged. -/
theorem tryBump_unchanged_fallback_witness :
    tryBump envF argsBase =
      some { version := semverV 1 2 3 []
             previousVersion := semverV 1 2 3 []
             dependencyUpdates := [] } :=
  (tryBump_unchanged_fallback envF argsBase (Or.inl rfl) rfl rfl
    (Or.inr (by decide))).trans (by rfl)

/-- Witness for C10 at envG: though the caller requested a prerelease with
preid alpha and skipUnstable true, libG's fresh bump is the plain minor
increment 0.1.0. -/
theorem dependencyBump_ignores_caller_flags_witness :
    dependencyVersionOf envG argsG.commitParserOptions argsG.preset "ROOT"
        argsG.releaseType argsG.skipCommitTypes argsG.versionTagPfx argsG.syncVersions
        argsG.projectName argsG.preid none depG
      = { type := "dependency", version := some (semverV 0 1 0 [])
          dependencyName := "libG" } := by
  have h := (dependencyBump_ignores_caller_flags envG argsG "ROOT" depG).2
    (by decide) (by rfl)
  rw [h]
  rfl

end TryBumpSpec
